import Mathlib

/-!
Shallow embedding of `src/bot.py` (a Discord bot that issues authentication
tokens over direct messages) together with proofs about the claims of the
specification.

Modelling conventions:
* Python `str` values are Lean `String`s; byte strings are `List Nat` with
  every entry `< 256`.
* `time.time()` returns a float; the bot only ever uses it through its
  `str(...)` rendering inside f-strings, so the timestamp is carried as the
  `String` this rendering produces and is a parameter of the embedding.
* `os.urandom(16)` is a random byte string; it is a parameter (`List Nat`).
* `hashlib.sha256` is embedded as an executable SHA-256 (FIPS 180-4) over
  byte lists, with 32-bit words as `Nat` reduced `% 2 ^ 32`.
* discord.py compares users with `==`, which compares the numeric ids
  (`_UserTag.__eq__`); users are records of id, name and discriminator.
* Event handlers are embedded as pure functions from the event data (and the
  results of the awaited fetches, which are inputs) to the list of calls
  (log writes, outbound messages, fetches) they perform, in order.
-/

/-! ### Small helpers: decimal and hexadecimal rendering -/

/-- The sixteen lowercase hexadecimal digit characters. -/
def lowerHexChars : List Char := "0123456789abcdef".data

/-- Lowercase hex digit of `n % 16` (as produced by Python `%x` / `bytes.hex`). -/
def hexDigitLower (n : Nat) : Char := lowerHexChars.getD (n % 16) '0'

/-- The sixteen uppercase hexadecimal digit characters. -/
def upperHexChars : List Char := "0123456789ABCDEF".data

/-- Uppercase hex digit of `n % 16` (as produced by `urllib.parse.quote`). -/
def hexDigitUpper (n : Nat) : Char := upperHexChars.getD (n % 16) '0'

/-- The two lowercase hex digits of a byte. -/
def byteHexLower (b : Nat) : List Char := [hexDigitLower (b / 16), hexDigitLower b]

/-- Python `bytes.hex()`: lowercase hex rendering of a byte string. -/
def bytesHex (bs : List Nat) : String := String.mk (bs.flatMap byteHexLower)

/-- Decimal digit character of `d % 10`. -/
def digitChar10 (d : Nat) : Char := Char.ofNat (48 + d % 10)

/-- Decimal digit list of a natural number, most significant first. -/
def natDigits (n : Nat) : List Char :=
  if n < 10 then [digitChar10 n]
  else natDigits (n / 10) ++ [digitChar10 (n % 10)]
decreasing_by exact Nat.div_lt_self (by omega) (by omega)

/-- Python `str` of a nonnegative int: its decimal rendering. -/
def pyStr (n : Nat) : String := String.mk (natDigits n)

/-- Boolean list-prefix test. -/
def listPrefixOf : List Char → List Char → Bool
  | [], _ => true
  | a :: as, b :: bs => listPrefixOf as bs && a == b
  | _ :: _, [] => false

/-- Boolean contiguous-sublist test. -/
def listInfixOf (n : List Char) : List Char → Bool
  | [] => listPrefixOf n []
  | c :: t => listPrefixOf n (c :: t) || listInfixOf n t

/-- Python `needle in haystack` for strings: contiguous substring test. -/
def pyStrIn (needle haystack : String) : Bool :=
  listInfixOf needle.toList haystack.toList

/-! ### UTF-8 encoding (Python `str.encode('utf-8')`) -/

/-- UTF-8 bytes of a single Unicode scalar value (Lean `Char`s are exactly
the Unicode scalar values, as are the code points of a valid Python `str`). -/
def utf8EncodeChar (c : Char) : List Nat :=
  if c.toNat < 0x80 then [c.toNat]
  else if c.toNat < 0x800 then [0xC0 + c.toNat / 64, 0x80 + c.toNat % 64]
  else if c.toNat < 0x10000 then
    [0xE0 + c.toNat / 4096, 0x80 + c.toNat / 64 % 64, 0x80 + c.toNat % 64]
  else
    [0xF0 + c.toNat / 262144, 0x80 + c.toNat / 4096 % 64, 0x80 + c.toNat / 64 % 64,
     0x80 + c.toNat % 64]

/-- UTF-8 encoding of a string, as a byte list. -/
def utf8Encode (s : String) : List Nat := s.toList.flatMap utf8EncodeChar

/-! ### SHA-256 (FIPS 180-4), the embedding of `hashlib.sha256` -/

/-- Right rotation of a 32-bit word (held as a `Nat < 2 ^ 32`). -/
def rotr32 (x n : Nat) : Nat := (x / 2 ^ n + x % 2 ^ n * 2 ^ (32 - n)) % 2 ^ 32

/-- SHA-256 `Ch` function. -/
def shaCh (x y z : Nat) : Nat := (x &&& y) ^^^ ((x ^^^ 0xFFFFFFFF) &&& z)

/-- SHA-256 `Maj` function. -/
def shaMaj (x y z : Nat) : Nat := (x &&& y) ^^^ (x &&& z) ^^^ (y &&& z)

/-- SHA-256 `Σ₀`. -/
def bigSigma0 (x : Nat) : Nat := rotr32 x 2 ^^^ rotr32 x 13 ^^^ rotr32 x 22

/-- SHA-256 `Σ₁`. -/
def bigSigma1 (x : Nat) : Nat := rotr32 x 6 ^^^ rotr32 x 11 ^^^ rotr32 x 25

/-- SHA-256 `σ₀`. -/
def smallSigma0 (x : Nat) : Nat := rotr32 x 7 ^^^ rotr32 x 18 ^^^ x / 2 ^ 3

/-- SHA-256 `σ₁`. -/
def smallSigma1 (x : Nat) : Nat := rotr32 x 17 ^^^ rotr32 x 19 ^^^ x / 2 ^ 10

/-- The 64 SHA-256 round constants. -/
def shaK : List Nat :=
  [1116352408, 1899447441, 3049323471, 3921009573, 961987163,
   1508970993, 2453635748, 2870763221, 3624381080, 310598401,
   607225278, 1426881987, 1925078388, 2162078206, 2614888103,
   3248222580, 3835390401, 4022224774, 264347078, 604807628,
   770255983, 1249150122, 1555081692, 1996064986, 2554220882,
   2821834349, 2952996808, 3210313671, 3336571891, 3584528711,
   113926993, 338241895, 666307205, 773529912, 1294757372,
   1396182291, 1695183700, 1986661051, 2177026350, 2456956037,
   2730485921, 2820302411, 3259730800, 3345764771, 3516065817,
   3600352804, 4094571909, 275423344, 430227734, 506948616,
   659060556, 883997877, 958139571, 1322822218, 1537002063,
   1747873779, 1955562222, 2024104815, 2227730452, 2361852424,
   2428436474, 2756734187, 3204031479, 3329325298]

/-- Big-endian 8-byte rendering of the 64-bit message length in bits. -/
def shaLenBytes (n : Nat) : List Nat :=
  [n / 2 ^ 56 % 256, n / 2 ^ 48 % 256, n / 2 ^ 40 % 256, n / 2 ^ 32 % 256,
   n / 2 ^ 24 % 256, n / 2 ^ 16 % 256, n / 2 ^ 8 % 256, n % 256]

/-- SHA-256 padding: append `0x80`, zeros up to 56 mod 64, then the length. -/
def sha256Pad (msg : List Nat) : List Nat :=
  msg ++ [0x80] ++ List.replicate ((119 - msg.length % 64) % 64) 0
      ++ shaLenBytes (msg.length * 8)

/-- Big-endian assembly of bytes into 32-bit words (groups of four). -/
def bytesToWords : List Nat → List Nat
  | a :: b :: c :: d :: rest => (((a * 256 + b) * 256 + c) * 256 + d) :: bytesToWords rest
  | _ => []

/-- Split a byte string into its 64-byte blocks, each as 16 words (the fuel
only bounds the iteration count; every round consumes 64 bytes). -/
def shaBlocksLoop : Nat → List Nat → List (List Nat)
  | _, [] => []
  | 0, _ :: _ => []
  | fuel + 1, b :: rest => bytesToWords ((b :: rest).take 64) :: shaBlocksLoop fuel ((b :: rest).drop 64)

/-- Split a (padded) byte string into its 64-byte blocks, each as 16 words. -/
def shaBlocks (bytes : List Nat) : List (List Nat) := shaBlocksLoop bytes.length bytes

/-- Extend the 16 block words to the 64-entry message schedule. -/
def shaSchedule (block : List Nat) : List Nat :=
  (List.range 48).foldl
    (fun w _ =>
      let t := w.length
      w ++ [(smallSigma1 (w.getD (t - 2) 0) + w.getD (t - 7) 0 +
             smallSigma0 (w.getD (t - 15) 0) + w.getD (t - 16) 0) % 2 ^ 32])
    block

/-- The eight 32-bit words of a SHA-256 hash state. -/
structure Hash8 where
  a : Nat
  b : Nat
  c : Nat
  d : Nat
  e : Nat
  f : Nat
  g : Nat
  h : Nat

/-- Initial SHA-256 hash value. -/
def sha256InitH : Hash8 :=
  ⟨1779033703, 3144134277, 1013904242, 2773480762,
   1359893119, 2600822924, 528734635, 1541459225⟩

/-- One SHA-256 compression step for round `t`. -/
def shaRound (w : List Nat) (s : Hash8) (t : Nat) : Hash8 :=
  let T1 := (s.h + bigSigma1 s.e + shaCh s.e s.f s.g + shaK.getD t 0 + w.getD t 0) % 2 ^ 32
  let T2 := (bigSigma0 s.a + shaMaj s.a s.b s.c) % 2 ^ 32
  ⟨(T1 + T2) % 2 ^ 32, s.a, s.b, s.c, (s.d + T1) % 2 ^ 32, s.e, s.f, s.g⟩

/-- SHA-256 compression of one 16-word block into the running hash. -/
def compressBlock (H : Hash8) (block : List Nat) : Hash8 :=
  let w := shaSchedule block
  let s := (List.range 64).foldl (shaRound w) H
  ⟨(H.a + s.a) % 2 ^ 32, (H.b + s.b) % 2 ^ 32, (H.c + s.c) % 2 ^ 32,
   (H.d + s.d) % 2 ^ 32, (H.e + s.e) % 2 ^ 32, (H.f + s.f) % 2 ^ 32,
   (H.g + s.g) % 2 ^ 32, (H.h + s.h) % 2 ^ 32⟩

/-- Big-endian bytes of a 32-bit word. -/
def wordBytes (w : Nat) : List Nat :=
  [w / 2 ^ 24 % 256, w / 2 ^ 16 % 256, w / 2 ^ 8 % 256, w % 256]

/-- SHA-256 digest (32 bytes) of a byte string. -/
def sha256Bytes (msg : List Nat) : List Nat :=
  let Hf := (shaBlocks (sha256Pad msg)).foldl compressBlock sha256InitH
  wordBytes Hf.a ++ wordBytes Hf.b ++ wordBytes Hf.c ++ wordBytes Hf.d ++
  wordBytes Hf.e ++ wordBytes Hf.f ++ wordBytes Hf.g ++ wordBytes Hf.h

/-- Embedding of `hashlib.sha256(msg).hexdigest()`: lowercase hex digest string. -/
def sha256hex (msg : List Nat) : String := String.mk ((sha256Bytes msg).flatMap byteHexLower)

/-! ### Percent-encoding (`urllib.parse.quote`, default `safe='/'`) -/

/-- Bytes kept literal by `urllib.parse.quote`: the always-safe set
(ASCII letters, digits, `_.-~`) plus the default `safe` argument `'/'`. -/
def isQuoteSafe (b : Nat) : Bool :=
  (65 ≤ b && b ≤ 90) || (97 ≤ b && b ≤ 122) || (48 ≤ b && b ≤ 57) ||
  b == 95 || b == 46 || b == 45 || b == 126 || b == 47

/-- Encoding of one byte by `quote`: literal if safe, else `%XX` uppercase. -/
def quoteByte (b : Nat) : List Char :=
  if isQuoteSafe b then [Char.ofNat b]
  else ['%', hexDigitUpper (b / 16), hexDigitUpper b]

/-- Embedding of `urllib.parse.quote(s)` with the default `safe='/'`: UTF-8 encode, then
percent-encode every unsafe byte with uppercase hex. -/
def quote (s : String) : String := String.mk ((utf8Encode s).flatMap quoteByte)

/-! ### The bot's constants (`src/bot.py` top level) -/

/-- The constant `LOGS_DIR = 'logs'`. -/
def LOGS_DIR : String := "logs"

/-- The constant `AUTH_FILE = f'{LOGS_DIR}/auth.log'`. -/
def AUTH_FILE : String := LOGS_DIR ++ "/auth.log"

/-- The constant `LOG_FILE = f'{LOGS_DIR}/main.log'`. -/
def LOG_FILE : String := LOGS_DIR ++ "/main.log"

/-- The constant `MAGIC_TRIGGER_STRING`. -/
def MAGIC_TRIGGER_STRING : String := "Take it away, Link Bot!"

/-- The literal text of `PREFILL_FORM_LINK_TEMPLATE` before the first
placeholder, split at its `?` (the start of the URL query). -/
def PREFILL_PATH : String :=
  "https://docs.google.com/forms/d/e/1FAIpQLSc6_HtfblPc_hikKztWNh6SfEhKAEzFxTgUQqbFDXQ7qFq08A/viewform"

/-- Template text between the `?` and the `username` placeholder. -/
def PREFILL_Q1 : String := "usp=pp_url&entry.1426369734="

/-- Template text between the `username` and `userid` placeholders. -/
def PREFILL_Q2 : String := "&entry.1675772246="

/-- Template text between the `userid` and `auth_token` placeholders. -/
def PREFILL_Q3 : String := "&entry.1231032926="

/-- Embedding of `PREFILL_FORM_LINK_TEMPLATE.format(username=u, userid=i, auth_token=t)`:
the template with its three placeholders substituted. -/
def formatPrefillLink (u i t : String) : String :=
  PREFILL_PATH ++ "?" ++ PREFILL_Q1 ++ u ++ PREFILL_Q2 ++ i ++ PREFILL_Q3 ++ t

/-! ### The auth data model (`UserAuth`, `get_token`) -/

/-- A Discord user as the bot observes it: numeric id, name, discriminator.
discord.py equality between user objects compares the ids. -/
structure PyUser where
  id : Nat
  name : String
  discriminator : String

/-- The `UserAuth` dataclass. The `timestamp` field holds the `str(...)`
rendering of the float `time.time()` value, which is the only way the bot
ever consumes it. -/
structure UserAuth where
  discord_username : String
  discord_userid : Nat
  timestamp : String
  nonce : String
  hash_digest : String

/-- Embedding of `UserAuth.get_hash_data_str`: `f'{username},{userid},{timestamp},{nonce}'`. -/
def UserAuth.get_hash_data_str (a : UserAuth) : String :=
  a.discord_username ++ "," ++ pyStr a.discord_userid ++ "," ++ a.timestamp ++ "," ++ a.nonce

/-- Embedding of `UserAuth.get_full_auth_str`: `f'{get_hash_data_str()},{hash_digest}'`. -/
def UserAuth.get_full_auth_str (a : UserAuth) : String :=
  a.get_hash_data_str ++ "," ++ a.hash_digest

/-- Embedding of `get_token`: build the record with the current time and a fresh
16-byte nonce (both are inputs of the embedding), then set `hash_digest` to
the SHA-256 hex digest of the UTF-8 encoded hash data string. -/
def get_token (discord_username : String) (discord_userid : Nat)
    (ts : String) (nonceBytes : List Nat) : UserAuth :=
  let auth : UserAuth :=
    { discord_username := discord_username
      discord_userid := discord_userid
      timestamp := ts
      nonce := bytesHex nonceBytes
      hash_digest := "" }
  { auth with hash_digest := sha256hex (utf8Encode auth.get_hash_data_str) }

/-! ### Handlers as call traces -/

/-- One observable call performed by a handler, in program order:
log-file writes, outbound messages and the awaited fetches. -/
inductive Call where
  | log (message : String) (filename : String)
  | sendDM (userId : Nat) (content : String)
  | reply (content : String)
  | fetchChannel (channelId : Nat)
  | fetchMessage (messageId : Nat)
  | fetchUser (userId : Nat)
deriving DecidableEq

/-- Is this call an append to the auth log (`log(..., filename=AUTH_FILE)`)? -/
def Call.isAuthLog : Call → Bool
  | .log _ fn => fn == AUTH_FILE
  | _ => false

/-- Is this call any `log(...)` call (console + file write)? -/
def Call.isLog : Call → Bool
  | .log _ _ => true
  | _ => false

/-- Is this call an outbound direct message (`user.send(...)`)? -/
def Call.isSend : Call → Bool
  | .sendDM _ _ => true
  | _ => false

/-- Is this call an in-place reply (`message.reply(...)`)? -/
def Call.isReply : Call → Bool
  | .reply _ => true
  | _ => false

/-- The body of the f-string DM sent by `send_user_authenticated_link`. -/
def dmMessageText (userid : Nat) (auth : UserAuth) (link : String) : String :=
  "\nAuthenticated as <@" ++ pyStr userid ++ ">.\nsecurity stuff, if you\x27re curious: ||userid="
    ++ pyStr userid ++ ", epoch timestamp=" ++ auth.timestamp ++ ", nonce=" ++ auth.nonce
    ++ ", generated auth token=" ++ auth.hash_digest
    ++ "\nauth token = SHA256(\"" ++ auth.get_hash_data_str
    ++ "\".encode(\x27utf-8\x27))||\nYour authenticated URL: " ++ link
    ++ "\nTo get a new URL, either send me a message, or react on any of my messages!\n"

/-- The display identity `f'{user.name}#{user.discriminator}'` the bot uses. -/
def discordUsername (user : PyUser) : String := user.name ++ "#" ++ user.discriminator

/-- Embedding of `send_user_authenticated_link(user)`: log the request, issue a token and
log its full audit string to `AUTH_FILE`, build the pre-filled form link and
DM it to the user. `ts`/`nonceBytes` are the clock and randomness inputs. -/
def send_user_authenticated_link (user : PyUser) (ts : String) (nonceBytes : List Nat) :
    List Call :=
  let discord_username := discordUsername user
  let auth := get_token discord_username user.id ts nonceBytes
  let link := formatPrefillLink (quote discord_username) (pyStr user.id) auth.hash_digest
  [.log ("starting authentication request for " ++ discord_username
          ++ " (id=" ++ pyStr user.id ++ ")") LOG_FILE,
   .log auth.get_full_auth_str AUTH_FILE,
   .sendDM user.id (dmMessageText user.id auth link)]

/-- A Discord message as the handlers see it: author, whether it was sent in
a guild (`message.guild` is not `None`), and its text content. -/
structure PyMessage where
  author : PyUser
  inGuild : Bool
  content : String

/-- The fixed announcement text replied to the magic trigger. -/
def announcementText (magicUserId : Nat) : String :=
  "Thanks <@" ++ pyStr magicUserId ++ ">, and hi @everyone! React to this message, and I\x27ll DM you an authenticated link to fill out the consent form."

/-- Embedding of `on_message`: ignore the bot's own messages; answer DMs with an
authenticated link; in guilds, reply to the magic trigger from the magic
user. `botId` is `client.user.id`, `magicUserId` is `MAGIC_USER_ID`. -/
def on_message (botId magicUserId : Nat) (message : PyMessage)
    (ts : String) (nonceBytes : List Nat) : List Call :=
  if message.author.id = botId then []
  else if !message.inGuild then
    .log ("received DM from " ++ discordUsername message.author
           ++ ", sending authenticated link") LOG_FILE
      :: send_user_authenticated_link message.author ts nonceBytes
  else if message.author.id = magicUserId && pyStrIn MAGIC_TRIGGER_STRING message.content then
    [.log "Detected the magic trigger from the magic user. Sending special message!" LOG_FILE,
     .reply (announcementText magicUserId)]
  else []

/-- The payload of a raw reaction event: channel, message and reacting user ids. -/
structure ReactionPayload where
  channel_id : Nat
  message_id : Nat
  user_id : Nat

/-- Embedding of `on_raw_reaction_add`: fetch the channel and message; if the message is
not the bot's own, stop; otherwise fetch the reacting user and send them an
authenticated link. The fetched message and user are inputs (results of the
awaited fetches). -/
def on_raw_reaction_add (botUser : PyUser) (payload : ReactionPayload)
    (fetchedMessage : PyMessage) (fetchedUser : PyUser)
    (ts : String) (nonceBytes : List Nat) : List Call :=
  [.fetchChannel payload.channel_id, .fetchMessage payload.message_id] ++
  if fetchedMessage.author.id ≠ botUser.id then []
  else
    [.fetchUser payload.user_id,
     .log ("observed reaction on my post from " ++ discordUsername fetchedUser
           ++ ", sending authenticated link") LOG_FILE]
    ++ send_user_authenticated_link fetchedUser ts nonceBytes

/-! ### The `log` utility -/

/-- The observable outcome of one `log(message, filename, print_dest)` call.
`now` is the `datetime.now().isoformat()` timestamp drawn during the call;
`openOk` says whether `open(filename, 'a')` succeeds. -/
structure LogOutcome where
  mkdirCalled : Bool
  consolePrinted : Option String
  fileWrite : Except String String
  pathVerifiedAfter : Bool

/-- Embedding of `log`: create the logs directory on first use, print
`f"{now} ({filename}): {message}"` to the console when `print_dest` is
truthy, then append `f"{now}: {message}\n"` to `filename`. The `with open`
has no handler, so a failing open raises to the caller: the embedding
returns `Except.error` and no file line. -/
def log (message : String) (filename : String) (printDest : Bool)
    (now : String) (pathVerified : Bool) (openOk : Bool) : LogOutcome :=
  { mkdirCalled := !pathVerified
    consolePrinted :=
      if printDest then some (now ++ " (" ++ filename ++ "): " ++ message) else none
    fileWrite :=
      if openOk then .ok (now ++ ": " ++ message ++ "\n")
      else .error ("could not open " ++ filename ++ " for append")
    pathVerifiedAfter := true }

/-! ### Spec-side definitions

These follow the specification's words (not the source, which never parses
URLs or decodes percent-encoding); they are used to state the claims about
the generated link. -/

/-- The URL-reserved characters of RFC 3986 (gen-delims and sub-delims). -/
def urlReservedChars : List Char :=
  [':', '/', '?', '#', '[', ']', '@', '!', '$', '&', '\x27', '(', ')', '*', '+', ',', ';', '=']

/-- Number of query parameters of a URL: the number of `&`-separated fields
after the first `?` (zero when there is no query part). -/
def queryParamCount (url : String) : Nat :=
  let cs := url.toList
  if '?' ∈ cs then ((cs.dropWhile (fun c => c != '?')).tail.count '&') + 1 else 0

/-- Value of a hexadecimal digit character, either case (`none` otherwise). -/
def hexCharVal (c : Char) : Option Nat :=
  if 48 ≤ c.toNat ∧ c.toNat ≤ 57 then some (c.toNat - 48)
  else if 65 ≤ c.toNat ∧ c.toNat ≤ 70 then some (c.toNat - 55)
  else if 97 ≤ c.toNat ∧ c.toNat ≤ 102 then some (c.toNat - 87)
  else none

/-- Decode the two hex digits of a `%XX` group into its byte. -/
def percentHex : List Char → Option (List Nat × List Char)
  | h1 :: h2 :: rest2 =>
    (hexCharVal h1).bind (fun hi => (hexCharVal h2).map (fun lo => ([hi * 16 + lo], rest2)))
  | _ => none

/-- Modelled from the spec: one step of percent-decoding. A `%XX` group
contributes the byte `XX`; a literal character contributes its UTF-8 bytes.
Malformed `%` sequences are rejected. -/
def percentDecodeStep : List Char → Option (List Nat × List Char)
  | [] => none
  | c :: rest => if c = '%' then percentHex rest else some (utf8EncodeChar c, rest)

/-- Iterate `percentDecodeStep` (the fuel only bounds the iteration count;
each step consumes at least one character). -/
def percentDecodeLoop : Nat → List Char → Option (List Nat)
  | _, [] => some []
  | 0, _ :: _ => none
  | fuel + 1, c :: rest =>
    match percentDecodeStep (c :: rest) with
    | none => none
    | some (bs, r) => (percentDecodeLoop fuel r).map (fun tl => bs ++ tl)

/-- Modelled from the spec: percent-decoding at the byte level. -/
def percentDecodeBytes (l : List Char) : Option (List Nat) := percentDecodeLoop l.length l

/-- Decode a two-byte UTF-8 sequence after its leading byte `b1`. -/
def utf8Cont2 (b1 : Nat) : List Nat → Option (Char × List Nat)
  | b2 :: rest2 =>
    if 0x80 ≤ b2 ∧ b2 < 0xC0 ∧ 0x80 ≤ (b1 - 0xC0) * 64 + (b2 - 0x80) then
      some (Char.ofNat ((b1 - 0xC0) * 64 + (b2 - 0x80)), rest2)
    else none
  | _ => none

/-- Decode a three-byte UTF-8 sequence after its leading byte `b1`. -/
def utf8Cont3 (b1 : Nat) : List Nat → Option (Char × List Nat)
  | b2 :: b3 :: rest3 =>
    if 0x80 ≤ b2 ∧ b2 < 0xC0 ∧ 0x80 ≤ b3 ∧ b3 < 0xC0 ∧
        0x800 ≤ ((b1 - 0xE0) * 64 + (b2 - 0x80)) * 64 + (b3 - 0x80) ∧
        ¬(0xD800 ≤ ((b1 - 0xE0) * 64 + (b2 - 0x80)) * 64 + (b3 - 0x80) ∧
          ((b1 - 0xE0) * 64 + (b2 - 0x80)) * 64 + (b3 - 0x80) ≤ 0xDFFF) then
      some (Char.ofNat (((b1 - 0xE0) * 64 + (b2 - 0x80)) * 64 + (b3 - 0x80)), rest3)
    else none
  | _ => none

/-- Decode a four-byte UTF-8 sequence after its leading byte `b1`. -/
def utf8Cont4 (b1 : Nat) : List Nat → Option (Char × List Nat)
  | b2 :: b3 :: b4 :: rest4 =>
    if 0x80 ≤ b2 ∧ b2 < 0xC0 ∧ 0x80 ≤ b3 ∧ b3 < 0xC0 ∧ 0x80 ≤ b4 ∧ b4 < 0xC0 ∧
        0x10000 ≤ (((b1 - 0xF0) * 64 + (b2 - 0x80)) * 64 + (b3 - 0x80)) * 64 + (b4 - 0x80) ∧
        (((b1 - 0xF0) * 64 + (b2 - 0x80)) * 64 + (b3 - 0x80)) * 64 + (b4 - 0x80) < 0x110000 then
      some (Char.ofNat ((((b1 - 0xF0) * 64 + (b2 - 0x80)) * 64 + (b3 - 0x80)) * 64 + (b4 - 0x80)),
            rest4)
    else none
  | _ => none

/-- One step of UTF-8 decoding: the first scalar value and the remaining
bytes, rejecting truncated, overlong, surrogate and out-of-range sequences. -/
def utf8DecodeStep : List Nat → Option (Char × List Nat)
  | [] => none
  | b1 :: rest =>
    if b1 < 0x80 then some (Char.ofNat b1, rest)
    else if b1 < 0xC0 then none
    else if b1 < 0xE0 then utf8Cont2 b1 rest
    else if b1 < 0xF0 then utf8Cont3 b1 rest
    else if b1 < 0xF8 then utf8Cont4 b1 rest
    else none

/-- Iterate `utf8DecodeStep` (the fuel only bounds the iteration count;
each step consumes at least one byte). -/
def utf8DecodeLoop : Nat → List Nat → Option (List Char)
  | _, [] => some []
  | 0, _ :: _ => none
  | fuel + 1, b :: rest =>
    match utf8DecodeStep (b :: rest) with
    | none => none
    | some (c, r) => (utf8DecodeLoop fuel r).map (fun cs => c :: cs)

/-- UTF-8 decoding of a byte list into its scalar values. -/
def utf8DecodeList (l : List Nat) : Option (List Char) := utf8DecodeLoop l.length l

/-- Modelled from the spec: full percent-decoding of a string — decode the
`%XX` groups to bytes and interpret the result as UTF-8. -/
def percentDecode (s : String) : Option String :=
  (percentDecodeBytes s.toList).bind (fun bs => (utf8DecodeList bs).map String.mk)

/-! ### Character-level facts about the renderings -/

/-- Reading `getD` at an index inside the list returns a member. -/
theorem getD_mem_of_lt {α : Type} {l : List α} {n : Nat} {d : α} (h : n < l.length) :
    l.getD n d ∈ l := by
  rw [List.getD_eq_getElem?_getD, List.getElem?_eq_getElem h]
  exact List.getElem_mem h

/-- Lowercase hex digits come from `lowerHexChars`. -/
theorem hexDigitLower_mem (n : Nat) : hexDigitLower n ∈ lowerHexChars :=
  getD_mem_of_lt (by
    have h16 : lowerHexChars.length = 16 := by decide
    have := Nat.mod_lt n (y := 16) (by omega)
    omega)

/-- Uppercase hex digits come from `upperHexChars`. -/
theorem hexDigitUpper_mem (n : Nat) : hexDigitUpper n ∈ upperHexChars :=
  getD_mem_of_lt (by
    have h16 : upperHexChars.length = 16 := by decide
    have := Nat.mod_lt n (y := 16) (by omega)
    omega)

/-- Every character of a lowercase hex rendering is a lowercase hex digit. -/
theorem mem_bytesHex_flatMap {c : Char} {bs : List Nat}
    (h : c ∈ bs.flatMap byteHexLower) : c ∈ lowerHexChars := by
  obtain ⟨b, -, hc⟩ := List.mem_flatMap.1 h
  simp only [byteHexLower, List.mem_cons, List.not_mem_nil, or_false] at hc
  rcases hc with rfl | rfl
  · exact hexDigitLower_mem _
  · exact hexDigitLower_mem _

/-- The code of a lowercase hex digit is a digit or `a`–`f`. -/
theorem mem_lowerHexChars_toNat {c : Char} (h : c ∈ lowerHexChars) :
    (48 ≤ c.toNat ∧ c.toNat ≤ 57) ∨ (97 ≤ c.toNat ∧ c.toNat ≤ 102) :=
  (by decide :
    ∀ x ∈ lowerHexChars, (48 ≤ x.toNat ∧ x.toNat ≤ 57) ∨ (97 ≤ x.toNat ∧ x.toNat ≤ 102)) c h

/-- The code of an uppercase hex digit is a digit or `A`–`F`. -/
theorem mem_upperHexChars_toNat {c : Char} (h : c ∈ upperHexChars) :
    (48 ≤ c.toNat ∧ c.toNat ≤ 57) ∨ (65 ≤ c.toNat ∧ c.toNat ≤ 70) :=
  (by decide :
    ∀ x ∈ upperHexChars, (48 ≤ x.toNat ∧ x.toNat ≤ 57) ∨ (65 ≤ x.toNat ∧ x.toNat ≤ 70)) c h

/-- The code of a decimal digit character. -/
theorem digitChar10_toNat (d : Nat) :
    48 ≤ (digitChar10 d).toNat ∧ (digitChar10 d).toNat ≤ 57 := by
  have hlt : d % 10 < 10 := Nat.mod_lt d (by omega)
  have hv : Nat.isValidChar (48 + d % 10) := Or.inl (by omega)
  unfold digitChar10
  rw [Char.ofNat, dif_pos hv]
  simp only [Char.toNat, Char.ofNatAux, UInt32.toNat, BitVec.toNat_ofNatLt]
  omega

/-- Every character of `natDigits` is a decimal digit. -/
theorem natDigits_toNat {c : Char} {n : Nat} (h : c ∈ natDigits n) :
    48 ≤ c.toNat ∧ c.toNat ≤ 57 := by
  induction n using Nat.strong_induction_on with
  | _ n ih =>
    rw [natDigits] at h
    by_cases hn : n < 10
    · rw [if_pos hn] at h
      simp only [List.mem_singleton] at h
      exact h ▸ digitChar10_toNat n
    · rw [if_neg hn] at h
      rcases List.mem_append.1 h with h1 | h2
      · exact ih (n / 10) (Nat.div_lt_self (by omega) (by omega)) h1
      · simp only [List.mem_singleton] at h2
        exact h2 ▸ digitChar10_toNat (n % 10)

/-! ### Shape of the SHA-256 hex digest -/

/-- Mapping `flatMap byteHexLower` doubles the length. -/
theorem length_flatMap_byteHexLower (bs : List Nat) :
    (bs.flatMap byteHexLower).length = 2 * bs.length := by
  induction bs with
  | nil => rfl
  | cons b t ih => simp [byteHexLower, ih]; omega

/-- The SHA-256 digest is 32 bytes. -/
theorem sha256Bytes_length (msg : List Nat) : (sha256Bytes msg).length = 32 := by
  simp [sha256Bytes, wordBytes]

/-- The SHA-256 hex digest has 64 characters. -/
theorem sha256hex_length (msg : List Nat) : (sha256hex msg).length = 64 := by
  rw [sha256hex, String.length_mk, length_flatMap_byteHexLower, sha256Bytes_length]

/-- Every character of the SHA-256 hex digest is a lowercase hex digit. -/
theorem sha256hex_mem {c : Char} {msg : List Nat} (h : c ∈ (sha256hex msg).toList) :
    c ∈ lowerHexChars := by
  simp only [sha256hex, String.toList] at h
  exact mem_bytesHex_flatMap h

/-! ### The characters `quote` can produce -/

/-- The codes of a `Char` are the valid Unicode scalar values. -/
theorem char_toNat_valid (c : Char) : Nat.isValidChar c.toNat := c.valid

/-- Applying `Char.ofNat` at a valid code gives a character with that code. -/
theorem charOfNat_toNat {n : Nat} (h : Nat.isValidChar n) : (Char.ofNat n).toNat = n := by
  rw [Char.ofNat, dif_pos h]
  simp only [Char.ofNatAux, Char.toNat, UInt32.toNat, BitVec.toNat_ofNatLt]

/-- UTF-8 encoding produces bytes. -/
theorem utf8EncodeChar_lt {c : Char} {b : Nat} (hb : b ∈ utf8EncodeChar c) : b < 256 := by
  have hv := char_toNat_valid c
  have hlt : c.toNat < 0x110000 := by rcases hv with h | ⟨_, h⟩ <;> omega
  unfold utf8EncodeChar at hb
  split_ifs at hb with h1 h2 h3
  · simp only [List.mem_singleton] at hb
    omega
  · have hd : c.toNat / 64 < 32 :=
      (Nat.div_lt_iff_lt_mul (by omega)).2 (by omega)
    have hm : c.toNat % 64 < 64 := Nat.mod_lt _ (by omega)
    simp only [List.mem_cons, List.not_mem_nil, or_false] at hb
    omega
  · have hd : c.toNat / 4096 < 16 :=
      (Nat.div_lt_iff_lt_mul (by omega)).2 (by omega)
    have hm1 : c.toNat / 64 % 64 < 64 := Nat.mod_lt _ (by omega)
    have hm : c.toNat % 64 < 64 := Nat.mod_lt _ (by omega)
    simp only [List.mem_cons, List.not_mem_nil, or_false] at hb
    omega
  · have hd : c.toNat / 262144 < 5 :=
      (Nat.div_lt_iff_lt_mul (by omega)).2 (by omega)
    have hm2 : c.toNat / 4096 % 64 < 64 := Nat.mod_lt _ (by omega)
    have hm1 : c.toNat / 64 % 64 < 64 := Nat.mod_lt _ (by omega)
    have hm : c.toNat % 64 < 64 := Nat.mod_lt _ (by omega)
    simp only [List.mem_cons, List.not_mem_nil, or_false] at hb
    omega

/-- All bytes of a UTF-8 encoded string are below 256. -/
theorem utf8Encode_lt {s : String} {b : Nat} (hb : b ∈ utf8Encode s) : b < 256 := by
  obtain ⟨ch, -, hbe⟩ := List.mem_flatMap.1 hb
  exact utf8EncodeChar_lt hbe

/-- Character-set characterization of `quote` output: every character is
`%`, `-`, `.`, `/`, `_`, `~`, a digit or an ASCII letter. -/
theorem quote_toNat_mem {u : String} {c : Char} (hc : c ∈ (quote u).toList) :
    c.toNat = 37 ∨ c.toNat = 45 ∨ c.toNat = 46 ∨ c.toNat = 47 ∨
    (48 ≤ c.toNat ∧ c.toNat ≤ 57) ∨ (65 ≤ c.toNat ∧ c.toNat ≤ 90) ∨
    c.toNat = 95 ∨ (97 ≤ c.toNat ∧ c.toNat ≤ 122) ∨ c.toNat = 126 := by
  simp only [quote, String.toList] at hc
  obtain ⟨b, hbmem, hcb⟩ := List.mem_flatMap.1 hc
  have hb256 : b < 256 := utf8Encode_lt hbmem
  unfold quoteByte at hcb
  by_cases hs : isQuoteSafe b
  · rw [if_pos hs] at hcb
    simp only [List.mem_singleton] at hcb
    subst hcb
    have hbv : Nat.isValidChar b := Or.inl (by omega)
    rw [charOfNat_toNat hbv]
    simp only [isQuoteSafe, Bool.or_eq_true, Bool.and_eq_true, decide_eq_true_eq,
      beq_iff_eq] at hs
    omega
  · rw [if_neg hs] at hcb
    simp only [List.mem_cons, List.not_mem_nil, or_false] at hcb
    rcases hcb with rfl | rfl | rfl
    · left; decide
    · rcases mem_upperHexChars_toNat (hexDigitUpper_mem (b / 16)) with h | h <;> omega
    · rcases mem_upperHexChars_toNat (hexDigitUpper_mem b) with h | h <;> omega

/-- A `quote` output character that is URL-reserved can only be `/`. -/
theorem quote_reserved_eq_slash {u : String} {c : Char}
    (hc : c ∈ (quote u).toList) (hr : c ∈ urlReservedChars) : c = '/' := by
  have hn := quote_toNat_mem hc
  fin_cases hr <;> first | rfl | (exfalso; revert hn; decide)

/-- The output of `quote` never contains a space. -/
theorem quote_no_space {u : String} {c : Char} (hc : c ∈ (quote u).toList) : c ≠ ' ' := by
  intro he
  have hn := quote_toNat_mem hc
  subst he
  revert hn; decide

/-- The output of `quote` never contains `&`. -/
theorem quote_amp_not_mem (u : String) : '&' ∉ (quote u).toList := by
  intro hmem
  have hn := quote_toNat_mem hmem
  revert hn; decide

/-- A decimal rendering never contains `&`. -/
theorem pyStr_amp_not_mem (i : Nat) : '&' ∉ (pyStr i).toList := by
  intro hmem
  simp only [pyStr, String.toList] at hmem
  have := natDigits_toNat hmem
  revert this; decide

/-- A SHA-256 hex digest never contains `&`. -/
theorem sha256hex_amp_not_mem (m : List Nat) : '&' ∉ (sha256hex m).toList := by
  intro hmem
  rcases mem_lowerHexChars_toNat (sha256hex_mem hmem) with h | h <;> revert h <;> decide

/-! ### Counting the query parameters of the generated link -/

/-- The instantiated template has four `&`-separated query fields whenever
the substituted values contain no `&` of their own. -/
theorem queryParamCount_formatPrefillLink (u i t : String)
    (hu : '&' ∉ u.toList) (hi : '&' ∉ i.toList) (ht : '&' ∉ t.toList) :
    queryParamCount (formatPrefillLink u i t) = 4 := by
  simp only [queryParamCount, formatPrefillLink, String.toList, String.data_append,
    List.append_assoc, List.cons_append, List.singleton_append, List.nil_append]
  have hmem : '?' ∈ PREFILL_PATH.data ++ '?' :: (PREFILL_Q1.data ++ (u.data ++
      (PREFILL_Q2.data ++ (i.data ++ (PREFILL_Q3.data ++ t.data))))) := by
    simp
  rw [if_pos hmem]
  have h1 : (List.dropWhile (fun c => c != '?') PREFILL_PATH.data).isEmpty = true := by decide
  rw [List.dropWhile_append, if_pos h1, List.dropWhile_cons, if_neg (by decide)]
  rw [List.tail_cons]
  simp only [List.count_append]
  have c1 : PREFILL_Q1.data.count '&' = 1 := by decide
  have c2 : PREFILL_Q2.data.count '&' = 1 := by decide
  have c3 : PREFILL_Q3.data.count '&' = 1 := by decide
  rw [c1, c2, c3, List.count_eq_zero_of_not_mem (show '&' ∉ u.data from hu),
    List.count_eq_zero_of_not_mem (show '&' ∉ i.data from hi),
    List.count_eq_zero_of_not_mem (show '&' ∉ t.data from ht)]

/-! ### Percent-decoding inverts `quote` (round-trip) -/

/-- Decoding one UTF-8-encoded scalar value recovers it and the rest. -/
theorem utf8DecodeStep_encodeChar (c : Char) (rest : List Nat) :
    utf8DecodeStep (utf8EncodeChar c ++ rest) = some (c, rest) := by
  have hv := char_toNat_valid c
  rcases Nat.lt_or_ge c.toNat 0x80 with h1 | h1
  · have e1 : utf8EncodeChar c = [c.toNat] := by
      unfold utf8EncodeChar
      rw [if_pos h1]
    rw [e1, List.singleton_append, utf8DecodeStep, if_pos h1, Char.ofNat_toNat]
  · rcases Nat.lt_or_ge c.toNat 0x800 with h2 | h2
    · have e1 : utf8EncodeChar c = [0xC0 + c.toNat / 64, 0x80 + c.toNat % 64] := by
        unfold utf8EncodeChar
        rw [if_neg (by omega), if_pos h2]
      rw [e1]
      simp only [List.cons_append, List.nil_append]
      rw [utf8DecodeStep, if_neg (by omega), if_neg (by omega), if_pos (by omega),
        utf8Cont2, if_pos (by omega)]
      have hrec : (0xC0 + c.toNat / 64 - 0xC0) * 64 + (0x80 + c.toNat % 64 - 0x80) = c.toNat := by
        omega
      rw [hrec, Char.ofNat_toNat]
    · rcases Nat.lt_or_ge c.toNat 0x10000 with h3 | h3
      · have hs : ¬(0xD800 ≤ c.toNat ∧ c.toNat ≤ 0xDFFF) := by
          rcases hv with h | ⟨h, -⟩ <;> omega
        have e1 : utf8EncodeChar c =
            [0xE0 + c.toNat / 4096, 0x80 + c.toNat / 64 % 64, 0x80 + c.toNat % 64] := by
          unfold utf8EncodeChar
          rw [if_neg (by omega), if_neg (by omega), if_pos h3]
        rw [e1]
        simp only [List.cons_append, List.nil_append]
        have hd : c.toNat / 4096 < 16 := by omega
        rw [utf8DecodeStep, if_neg (by omega), if_neg (by omega), if_neg (by omega),
          if_pos (by omega), utf8Cont3]
        have hrec : ((0xE0 + c.toNat / 4096 - 0xE0) * 64 + (0x80 + c.toNat / 64 % 64 - 0x80)) * 64 +
            (0x80 + c.toNat % 64 - 0x80) = c.toNat := by omega
        rw [hrec, if_pos ⟨by omega, by omega, by omega, by omega, by omega, hs⟩, Char.ofNat_toNat]
      · have h4 : c.toNat < 0x110000 := by rcases hv with h | ⟨-, h⟩ <;> omega
        have e1 : utf8EncodeChar c =
            [0xF0 + c.toNat / 262144, 0x80 + c.toNat / 4096 % 64, 0x80 + c.toNat / 64 % 64,
             0x80 + c.toNat % 64] := by
          unfold utf8EncodeChar
          rw [if_neg (by omega), if_neg (by omega), if_neg (by omega)]
        rw [e1]
        simp only [List.cons_append, List.nil_append]
        have hd : c.toNat / 262144 < 5 := by omega
        rw [utf8DecodeStep, if_neg (by omega), if_neg (by omega), if_neg (by omega),
          if_neg (by omega), if_pos (by omega), utf8Cont4]
        have hrec : (((0xF0 + c.toNat / 262144 - 0xF0) * 64 + (0x80 + c.toNat / 4096 % 64 - 0x80)) * 64 +
            (0x80 + c.toNat / 64 % 64 - 0x80)) * 64 + (0x80 + c.toNat % 64 - 0x80) = c.toNat := by
          omega
        rw [hrec, if_pos (by omega), Char.ofNat_toNat]

/-- A UTF-8 encoding is never empty. -/
theorem utf8EncodeChar_length_pos (c : Char) : 1 ≤ (utf8EncodeChar c).length := by
  unfold utf8EncodeChar
  split_ifs <;> simp

/-- With enough fuel, the decode loop inverts `flatMap utf8EncodeChar`. -/
theorem utf8DecodeLoop_flatMap :
    ∀ (cs : List Char) (fuel : Nat), (cs.flatMap utf8EncodeChar).length ≤ fuel →
      utf8DecodeLoop fuel (cs.flatMap utf8EncodeChar) = some cs := by
  intro cs
  induction cs with
  | nil =>
    intro fuel _
    cases fuel <;> rfl
  | cons c tl ih =>
    intro fuel hf
    rw [List.flatMap_cons] at hf ⊢
    have hone := utf8EncodeChar_length_pos c
    rcases henc : utf8EncodeChar c with _ | ⟨b, bs⟩
    · rw [henc] at hone; simp at hone
    · rw [henc] at hf
      rcases fuel with _ | f
      · simp at hf
      · rw [List.cons_append, utf8DecodeLoop, ← List.cons_append, ← henc,
          utf8DecodeStep_encodeChar]
        have hfle : (tl.flatMap utf8EncodeChar).length ≤ f := by
          simp only [List.cons_append, List.length_append, List.length_cons] at hf
          omega
        show (utf8DecodeLoop f (tl.flatMap utf8EncodeChar)).map (fun cs => c :: cs)
          = some (c :: tl)
        rw [ih f hfle]
        rfl

/-- UTF-8 decoding inverts UTF-8 encoding. -/
theorem utf8DecodeList_flatMap (cs : List Char) :
    utf8DecodeList (cs.flatMap utf8EncodeChar) = some cs :=
  utf8DecodeLoop_flatMap cs _ (Nat.le_refl _)

/-- The function `hexCharVal` inverts `hexDigitUpper`. -/
theorem hexCharVal_hexDigitUpper (n : Nat) : hexCharVal (hexDigitUpper n) = some (n % 16) := by
  unfold hexDigitUpper
  generalize hm : n % 16 = m
  have h : m < 16 := hm ▸ Nat.mod_lt _ (by omega)
  interval_cases m <;> decide

/-- Decoding one `quote`-encoded byte recovers it and the rest. -/
theorem percentDecodeStep_quoteByte {b : Nat} (hb : b < 256) (rest : List Char) :
    percentDecodeStep (quoteByte b ++ rest) = some ([b], rest) := by
  by_cases hs : isQuoteSafe b
  · have hble : b ≤ 126 := by
      simp only [isQuoteSafe, Bool.or_eq_true, Bool.and_eq_true, decide_eq_true_eq,
        beq_iff_eq] at hs
      omega
    have ht : (Char.ofNat b).toNat = b := charOfNat_toNat (Or.inl (by omega))
    have hne : ¬(Char.ofNat b = '%') := by
      intro he
      rw [he] at ht
      have h37 : ('%').toNat = 37 := rfl
      rw [h37] at ht
      rw [← ht] at hs
      exact absurd hs (by decide)
    rw [quoteByte, if_pos hs, List.singleton_append, percentDecodeStep, if_neg hne]
    have henc : utf8EncodeChar (Char.ofNat b) = [b] := by
      unfold utf8EncodeChar
      rw [ht, if_pos (by omega)]
    rw [henc]
  · rw [quoteByte, if_neg hs]
    simp only [List.cons_append]
    rw [percentDecodeStep, if_pos rfl, percentHex, hexCharVal_hexDigitUpper,
      hexCharVal_hexDigitUpper]
    simp only [Option.some_bind, Option.map_some']
    have hd : b / 16 % 16 * 16 + b % 16 = b := by omega
    rw [hd, List.nil_append]

/-- A `quote` byte encoding is never empty. -/
theorem quoteByte_length_pos (b : Nat) : 1 ≤ (quoteByte b).length := by
  unfold quoteByte
  split_ifs <;> simp

/-- With enough fuel, the decode loop inverts `flatMap quoteByte`. -/
theorem percentDecodeLoop_flatMap :
    ∀ (bs : List Nat) (fuel : Nat), (∀ b ∈ bs, b < 256) →
      (bs.flatMap quoteByte).length ≤ fuel →
      percentDecodeLoop fuel (bs.flatMap quoteByte) = some bs := by
  intro bs
  induction bs with
  | nil =>
    intro fuel _ _
    cases fuel <;> rfl
  | cons b tl ih =>
    intro fuel h256 hf
    rw [List.flatMap_cons] at hf ⊢
    have hone := quoteByte_length_pos b
    rcases henc : quoteByte b with _ | ⟨c, cs⟩
    · rw [henc] at hone; simp at hone
    · rw [henc] at hf
      rcases fuel with _ | f
      · simp at hf
      · rw [List.cons_append, percentDecodeLoop, ← List.cons_append, ← henc,
          percentDecodeStep_quoteByte (h256 b (by simp))]
        have hfle : (tl.flatMap quoteByte).length ≤ f := by
          simp only [List.cons_append, List.length_append, List.length_cons] at hf
          omega
        show (percentDecodeLoop f (tl.flatMap quoteByte)).map (fun tl2 => [b] ++ tl2)
          = some (b :: tl)
        rw [ih f (fun x hx => h256 x (by simp [hx])) hfle]
        rfl

/-- Percent-decoding inverts the byte-level encoding of `quote`. -/
theorem percentDecodeBytes_flatMap (bs : List Nat) (h256 : ∀ b ∈ bs, b < 256) :
    percentDecodeBytes (bs.flatMap quoteByte) = some bs :=
  percentDecodeLoop_flatMap bs _ h256 (Nat.le_refl _)

/-! ### Concrete validation of the embedded primitives -/

set_option maxRecDepth 8192 in
/-- FIPS 180-4 test vector: the SHA-256 digest of `"abc"`. -/
theorem sha256hex_abc_vector :
    sha256hex ("abc".toList.map Char.toNat)
      = "ba7816bf8f01cfea414140de5dae2223b00361a396177a9cb410ff61f20015ad" := by
  decide

set_option maxRecDepth 8192 in
/-- FIPS 180-4 test vector: the SHA-256 digest of the empty message. -/
theorem sha256hex_empty_vector :
    sha256hex []
      = "e3b0c44298fc1c149afbf4c8996fb92427ae41e4649b934ca495991b7852b855" := by
  decide

/-- Evaluating `urllib.parse.quote` on a mixed username: space, `#`, `&` and the
non-ASCII `é` (U+00E9) are escaped with uppercase hex, `/` is kept. -/
theorem quote_sample_value : quote "a b#c&d/é" = "a%20b%23c%26d/%C3%A9" := by
  decide

/-- Concrete round trip: decoding the quoted sample recovers it. -/
theorem percentDecode_sample_value : percentDecode "a%20b%23c%26d/%C3%A9" = some "a b#c&d/é" := by
  decide

/-! ### Claim theorems -/

/-- C1: every record returned by `get_token` has a `hash_digest` equal to the
SHA-256 hex digest (64 lowercase hex characters) of the UTF-8 encoding of the
comma-separated hash data string built from the record's own fields, so
recomputing the hash from the logged fields reproduces the digest exactly. -/
theorem get_token_digest_roundtrip (username : String) (userid : Nat) (ts : String)
    (nonceBytes : List Nat) :
    (get_token username userid ts nonceBytes).hash_digest
      = sha256hex (utf8Encode (get_token username userid ts nonceBytes).get_hash_data_str)
    ∧ (get_token username userid ts nonceBytes).hash_digest.length = 64
    ∧ ((get_token username userid ts nonceBytes).hash_digest.toList.all
        (fun c => lowerHexChars.contains c)) = true := by
  refine ⟨rfl, sha256hex_length _, ?_⟩
  rw [List.all_eq_true]
  intro c hc
  have hmem : c ∈ lowerHexChars := sha256hex_mem hc
  exact List.elem_iff.2 hmem

/-- The instantiated form link of an issued record always has four query
parameters (helper shared by several results below). -/
theorem queryParamCount_link (u : String) (i : Nat) (m : List Nat) :
    queryParamCount (formatPrefillLink (quote u) (pyStr i) (sha256hex m)) = 4 :=
  queryParamCount_formatPrefillLink _ _ _ (quote_amp_not_mem u) (pyStr_amp_not_mem i)
    (sha256hex_amp_not_mem m)

/-- C5 (counterexample): the link generated for a concretely issued record
(username `alice#0001`, userid 1, timestamp `1700.5`, nonce byte `0xab`) does
not contain exactly three query parameters. -/
theorem prefill_link_not_three_params :
    queryParamCount (formatPrefillLink (quote (discordUsername ⟨1, "alice", "0001"⟩)) (pyStr 1)
      (get_token (discordUsername ⟨1, "alice", "0001"⟩) 1 "1700.5" [171]).hash_digest) ≠ 3 := by
  have hdig : (get_token (discordUsername ⟨1, "alice", "0001"⟩) 1 "1700.5" [171]).hash_digest
      = sha256hex (utf8Encode (UserAuth.get_hash_data_str
          ⟨discordUsername ⟨1, "alice", "0001"⟩, 1, "1700.5", bytesHex [171], ""⟩)) := rfl
  rw [hdig, queryParamCount_link]
  decide

/-- C5 (amended): for every issued record, the generated link contains
exactly four query parameters: the fixed `usp=pp_url` of the template plus
the three substituted ones (username, userid, auth token). -/
theorem prefill_link_four_params (u : String) (i : Nat) (m : List Nat) :
    queryParamCount (formatPrefillLink (quote u) (pyStr i) (sha256hex m)) = 4 :=
  queryParamCount_link u i m

/-- C6 (counterexample): `quote` leaves the URL-reserved character `/`
unescaped: quoting the username `a/b` leaves a literal `/` in the value. -/
theorem quote_leaves_slash_unescaped :
    '/' ∈ urlReservedChars ∧ '/' ∈ (quote "a/b").toList := by
  constructor
  · decide
  · decide

/-- C6 (amended): the percent-encoded username contains no URL-reserved
character other than `/`, and no space; in particular space, `#` and `&` are
always escaped (`/`, which `urllib.parse.quote` keeps by default, is not). -/
theorem quote_escapes_reserved_except_slash (u : String) :
    (quote u).toList.filter (fun c => decide (c ∈ urlReservedChars ∧ c ≠ '/')) = []
    ∧ (quote u).toList.filter (fun c => decide (c = ' ')) = [] := by
  constructor
  · rw [List.filter_eq_nil_iff]
    intro a ha
    simp only [decide_eq_true_eq]
    rintro ⟨hr, hslash⟩
    exact hslash (quote_reserved_eq_slash ha hr)
  · rw [List.filter_eq_nil_iff]
    intro a ha
    simp only [decide_eq_true_eq]
    exact quote_no_space ha

/-- C7: percent-decoding the percent-encoded username recovers the original
username exactly (decode after encode is the identity). -/
theorem percentDecode_quote_id (s : String) : percentDecode (quote s) = some s := by
  unfold percentDecode quote
  rw [show (String.mk ((utf8Encode s).flatMap quoteByte)).toList
        = (utf8Encode s).flatMap quoteByte from rfl]
  rw [percentDecodeBytes_flatMap _ (fun b hb => utf8Encode_lt hb), Option.some_bind]
  rw [show utf8Encode s = s.toList.flatMap utf8EncodeChar from rfl, utf8DecodeList_flatMap]
  rfl

/-- C9: when the destination file cannot be opened for append, `log` has no
handler and the failure propagates: the outcome is the open error and no
file line is ever recorded as written. -/
theorem log_open_failure_propagates (message filename : String) (printDest : Bool)
    (now : String) (pathVerified : Bool) :
    (log message filename printDest now pathVerified false).fileWrite
        = Except.error ("could not open " ++ filename ++ " for append")
    ∧ ∀ line : String,
        (log message filename printDest now pathVerified false).fileWrite ≠ Except.ok line := by
  constructor
  · rfl
  · intro line h
    simp only [log, if_neg] at h
    cases h

/-- C2: a direct message from a non-bot user produces exactly one append to
the auth log, whose logged content is the issued record's full audit string
`username,userid,timestamp,nonce,digest`, and exactly one outbound direct
message to that user whose text contains the URL instantiated from the fixed
form-link template. -/
theorem on_message_dm_one_audit_one_link (botId magicUserId : Nat) (author : PyUser)
    (content ts : String) (nb : List Nat) (hne : author.id ≠ botId) :
    (on_message botId magicUserId ⟨author, false, content⟩ ts nb).filter Call.isAuthLog
      = [Call.log (get_token (discordUsername author) author.id ts nb).get_full_auth_str AUTH_FILE]
    ∧ ∃ p q : String,
        (on_message botId magicUserId ⟨author, false, content⟩ ts nb).filter Call.isSend
          = [Call.sendDM author.id
              (p ++ formatPrefillLink (quote (discordUsername author)) (pyStr author.id)
                  (get_token (discordUsername author) author.id ts nb).hash_digest ++ q)] := by
  have hbranch : on_message botId magicUserId ⟨author, false, content⟩ ts nb
      = .log ("received DM from " ++ discordUsername author ++ ", sending authenticated link")
          LOG_FILE
        :: send_user_authenticated_link author ts nb := by
    simp [on_message, hne]
  rw [hbranch]
  unfold send_user_authenticated_link
  have h1 : (LOG_FILE == AUTH_FILE) = false := by decide
  have h2 : (AUTH_FILE == AUTH_FILE) = true := rfl
  constructor
  · simp [List.filter_cons, Call.isAuthLog, Call.isSend, h1, h2]
  · refine ⟨"\nAuthenticated as <@" ++ pyStr author.id
        ++ ">.\nsecurity stuff, if you\x27re curious: ||userid="
        ++ pyStr author.id ++ ", epoch timestamp="
        ++ (get_token (discordUsername author) author.id ts nb).timestamp
        ++ ", nonce=" ++ (get_token (discordUsername author) author.id ts nb).nonce
        ++ ", generated auth token="
        ++ (get_token (discordUsername author) author.id ts nb).hash_digest
        ++ "\nauth token = SHA256(\""
        ++ (get_token (discordUsername author) author.id ts nb).get_hash_data_str
        ++ "\".encode(\x27utf-8\x27))||\nYour authenticated URL: ",
      "\nTo get a new URL, either send me a message, or react on any of my messages!\n", ?_⟩
    simp only [List.filter_cons, Call.isAuthLog, Call.isSend, h1, h2]
    simp only [List.filter_nil, Bool.false_eq_true, ite_false, ite_true]
    rfl

/-- Witness for C2 at a concrete non-bot sender. -/
theorem on_message_dm_one_audit_one_link_witness :
    (1 : Nat) ≠ 0
    ∧ ((on_message 0 5 ⟨⟨1, "alice", "0001"⟩, false, "hi"⟩ "1700.5" [171]).filter Call.isAuthLog
        = [Call.log (get_token (discordUsername ⟨1, "alice", "0001"⟩) 1 "1700.5"
            [171]).get_full_auth_str AUTH_FILE]
      ∧ ∃ p q : String,
          (on_message 0 5 ⟨⟨1, "alice", "0001"⟩, false, "hi"⟩ "1700.5" [171]).filter Call.isSend
            = [Call.sendDM 1
                (p ++ formatPrefillLink (quote (discordUsername ⟨1, "alice", "0001"⟩)) (pyStr 1)
                    (get_token (discordUsername ⟨1, "alice", "0001"⟩) 1 "1700.5"
                      [171]).hash_digest ++ q)]) :=
  ⟨by decide, on_message_dm_one_audit_one_link 0 5 ⟨1, "alice", "0001"⟩ "hi" "1700.5" [171]
      (by decide)⟩

/-- C3: a reaction on a message not authored by the bot is a no-op apart
from the two fetches: no log call, no outbound message, no reply. -/
theorem on_raw_reaction_nonbot_noop (botUser : PyUser) (payload : ReactionPayload)
    (fm : PyMessage) (fu : PyUser) (ts : String) (nb : List Nat)
    (h : fm.author.id ≠ botUser.id) :
    on_raw_reaction_add botUser payload fm fu ts nb
      = [Call.fetchChannel payload.channel_id, Call.fetchMessage payload.message_id]
    ∧ (on_raw_reaction_add botUser payload fm fu ts nb).filter Call.isLog = []
    ∧ (on_raw_reaction_add botUser payload fm fu ts nb).filter Call.isSend = []
    ∧ (on_raw_reaction_add botUser payload fm fu ts nb).filter Call.isReply = [] := by
  have hb : on_raw_reaction_add botUser payload fm fu ts nb
      = [Call.fetchChannel payload.channel_id, Call.fetchMessage payload.message_id] := by
    simp [on_raw_reaction_add, h]
  rw [hb]
  exact ⟨rfl, rfl, rfl, rfl⟩

/-- Witness for C3 at a concrete non-bot message author. -/
theorem on_raw_reaction_nonbot_noop_witness :
    (1 : Nat) ≠ 0
    ∧ (on_raw_reaction_add ⟨0, "linkbot", "0000"⟩ ⟨10, 20, 30⟩
          ⟨⟨1, "alice", "0001"⟩, true, "hello"⟩ ⟨30, "bob", "0002"⟩ "1700.5" [171]
        = [Call.fetchChannel 10, Call.fetchMessage 20]
      ∧ (on_raw_reaction_add ⟨0, "linkbot", "0000"⟩ ⟨10, 20, 30⟩
            ⟨⟨1, "alice", "0001"⟩, true, "hello"⟩ ⟨30, "bob", "0002"⟩ "1700.5" [171]).filter
          Call.isLog = []
      ∧ (on_raw_reaction_add ⟨0, "linkbot", "0000"⟩ ⟨10, 20, 30⟩
            ⟨⟨1, "alice", "0001"⟩, true, "hello"⟩ ⟨30, "bob", "0002"⟩ "1700.5" [171]).filter
          Call.isSend = []
      ∧ (on_raw_reaction_add ⟨0, "linkbot", "0000"⟩ ⟨10, 20, 30⟩
            ⟨⟨1, "alice", "0001"⟩, true, "hello"⟩ ⟨30, "bob", "0002"⟩ "1700.5" [171]).filter
          Call.isReply = []) :=
  ⟨by decide, on_raw_reaction_nonbot_noop ⟨0, "linkbot", "0000"⟩ ⟨10, 20, 30⟩
      ⟨⟨1, "alice", "0001"⟩, true, "hello"⟩ ⟨30, "bob", "0002"⟩ "1700.5" [171] (by decide)⟩

/-- C4 (counterexample): when the configured privileged user id is the bot's
own id, a guild message from the privileged user containing the trigger
phrase gets zero replies, not one: the handler discards its own messages
before the privilege check. -/
theorem magic_trigger_bot_author_no_reply :
    pyStrIn MAGIC_TRIGGER_STRING MAGIC_TRIGGER_STRING = true
    ∧ ((on_message 5 5 ⟨⟨5, "linkbot", "0000"⟩, true, MAGIC_TRIGGER_STRING⟩ "1700.5" []).filter
        Call.isReply).length = 0
    ∧ ((on_message 5 5 ⟨⟨5, "linkbot", "0000"⟩, true, MAGIC_TRIGGER_STRING⟩ "1700.5" []).filter
        Call.isReply).length ≠ 1 := by
  decide

/-- C4 (amended): for a guild message containing the trigger phrase, a
non-privileged author gets zero replies; the privileged author gets exactly
one in-place reply with the fixed announcement text and zero auth-log
appends — provided the privileged user is not the bot itself, whose messages
are discarded before the privilege check. -/
theorem magic_trigger_reply_behavior (botId magicUserId : Nat) (author : PyUser)
    (content ts : String) (nb : List Nat)
    (htrig : pyStrIn MAGIC_TRIGGER_STRING content = true) :
    (author.id ≠ magicUserId →
      (on_message botId magicUserId ⟨author, true, content⟩ ts nb).filter Call.isReply = [])
    ∧ (author.id = magicUserId → author.id ≠ botId →
        (on_message botId magicUserId ⟨author, true, content⟩ ts nb).filter Call.isReply
          = [Call.reply (announcementText magicUserId)]
        ∧ (on_message botId magicUserId ⟨author, true, content⟩ ts nb).filter Call.isAuthLog
          = []) := by
  constructor
  · intro hmag
    by_cases hbot : author.id = botId
    · simp [on_message, hbot]
    · simp [on_message, hbot, hmag]
  · intro hmag hbot
    rw [hmag] at hbot
    have h1 : (LOG_FILE == AUTH_FILE) = false := by decide
    simp [on_message, hbot, hmag, htrig, Call.isReply, Call.isAuthLog, h1]

/-- Witness for C4 (amended) at a concrete trigger message. -/
theorem magic_trigger_reply_behavior_witness :
    pyStrIn MAGIC_TRIGGER_STRING MAGIC_TRIGGER_STRING = true
    ∧ (((1 : Nat) ≠ 1 →
        (on_message 0 1 ⟨⟨1, "maggie", "0001"⟩, true, MAGIC_TRIGGER_STRING⟩ "1700.5" []).filter
          Call.isReply = [])
      ∧ ((1 : Nat) = 1 → (1 : Nat) ≠ 0 →
          (on_message 0 1 ⟨⟨1, "maggie", "0001"⟩, true, MAGIC_TRIGGER_STRING⟩ "1700.5" []).filter
            Call.isReply = [Call.reply (announcementText 1)]
          ∧ (on_message 0 1 ⟨⟨1, "maggie", "0001"⟩, true, MAGIC_TRIGGER_STRING⟩ "1700.5"
              []).filter Call.isAuthLog = [])) :=
  ⟨by decide, magic_trigger_reply_behavior 0 1 ⟨1, "maggie", "0001"⟩ MAGIC_TRIGGER_STRING
      "1700.5" [] (by decide)⟩

/-- C8 (counterexample): the line appended to the file and the line printed
to the console differ: the console line carries the destination filename
after the timestamp, so the mirrored line is not the same line. -/
theorem log_console_line_differs :
    (log "msg" LOG_FILE true "T0" true true).fileWrite
        = Except.ok ("T0" ++ ": " ++ "msg" ++ "\n")
    ∧ (log "msg" LOG_FILE true "T0" true true).consolePrinted
        = some ("T0" ++ " (" ++ LOG_FILE ++ "): " ++ "msg")
    ∧ ("T0" ++ " (" ++ LOG_FILE ++ "): " ++ "msg") ≠ ("T0" ++ ": " ++ "msg") := by
  refine ⟨rfl, rfl, ?_⟩
  decide

/-- C8 (amended): `log` appends `"<timestamp>: <message>"` (plus newline) to
the destination file; the console line, printed only when console output is
not suppressed, is the same timestamp and message with the destination
filename inserted after the timestamp. -/
theorem log_line_formats (message filename now : String) (pathVerified : Bool) :
    (log message filename true now pathVerified true).fileWrite
        = Except.ok (now ++ ": " ++ message ++ "\n")
    ∧ (log message filename false now pathVerified true).fileWrite
        = Except.ok (now ++ ": " ++ message ++ "\n")
    ∧ (log message filename true now pathVerified true).consolePrinted
        = some (now ++ " (" ++ filename ++ "): " ++ message)
    ∧ (log message filename false now pathVerified true).consolePrinted = none :=
  ⟨rfl, rfl, rfl, rfl⟩

/-- C10: the reaction handler has no self-exclusion: a reaction by the bot
itself on one of its own messages issues a token (one auth-log append with
the full audit string) and sends the authenticated-link DM to the bot,
whereas the message handler discards the bot's own messages entirely. -/
theorem reaction_by_bot_on_own_message_issues_token (botUser : PyUser) (cid mid : Nat)
    (g : Bool) (content ts : String) (nb : List Nat) (magicUserId : Nat)
    (n d : String) (g2 : Bool) (content2 : String) :
    (on_raw_reaction_add botUser ⟨cid, mid, botUser.id⟩ ⟨botUser, g, content⟩ botUser ts nb).filter
        Call.isAuthLog
      = [Call.log (get_token (discordUsername botUser) botUser.id ts nb).get_full_auth_str
          AUTH_FILE]
    ∧ (on_raw_reaction_add botUser ⟨cid, mid, botUser.id⟩ ⟨botUser, g, content⟩ botUser ts
          nb).filter Call.isSend
      = [Call.sendDM botUser.id (dmMessageText botUser.id
          (get_token (discordUsername botUser) botUser.id ts nb)
          (formatPrefillLink (quote (discordUsername botUser)) (pyStr botUser.id)
            (get_token (discordUsername botUser) botUser.id ts nb).hash_digest))]
    ∧ on_message botUser.id magicUserId ⟨⟨botUser.id, n, d⟩, g2, content2⟩ ts nb = [] := by
  have hb : on_raw_reaction_add botUser ⟨cid, mid, botUser.id⟩ ⟨botUser, g, content⟩ botUser ts nb
      = [Call.fetchChannel cid, Call.fetchMessage mid, Call.fetchUser botUser.id,
         Call.log ("observed reaction on my post from " ++ discordUsername botUser
            ++ ", sending authenticated link") LOG_FILE]
        ++ send_user_authenticated_link botUser ts nb := by
    simp [on_raw_reaction_add]
  have h1 : (LOG_FILE == AUTH_FILE) = false := by decide
  have h2 : (AUTH_FILE == AUTH_FILE) = true := rfl
  refine ⟨?_, ?_, ?_⟩
  · rw [hb]
    unfold send_user_authenticated_link
    simp [List.filter_cons, Call.isAuthLog, h1, h2]
  · rw [hb]
    unfold send_user_authenticated_link
    simp [List.filter_cons, Call.isSend, h1, h2]
  · simp [on_message]
